import Mathlib

/-!
Verification development for the head-orbit-text particle engine
(`src/main.ts`).  The definitions below are a shallow embedding of the
particle store, the per-frame integrator, the brush interaction and the
coordinate mapper; JavaScript numbers are modelled as real numbers, and
the one place where control flow depends on arithmetic that is exact in
IEEE doubles (the veil-copy count) is modelled over the naturals so that
it stays executable.
-/

open Real

/-! ## Configuration constants (src/main.ts lines 197-221) -/

/-- `ORBIT_MAX_LANES = 12` (line 197). -/
def ORBIT_MAX_LANES : ℕ := 12

namespace ORBIT

/-- `laneCapacity: 16` (line 200). -/
def laneCapacity : ℕ := 16

/-- `maxParticles: 600` (line 201). -/
def maxParticles : ℕ := 600

/-- `laneGap: 26` (line 199). -/
def laneGap : ℝ := 26

/-- `baseRScale: 0.85` (line 202). -/
def baseRScale : ℝ := 0.85

/-- `influenceRadius: 90` (line 206). -/
def influenceRadius : ℝ := 90

/-- `repelStrength: 140` (line 207). -/
def repelStrength : ℝ := 140

/-- `swirlStrength: 3.2` (line 208). -/
def swirlStrength : ℝ := 3.2

/-- `tauRadius: 1.2` (line 209). -/
def tauRadius : ℝ := 1.2

/-- `tauOmega: 0.9` (line 210). -/
def tauOmega : ℝ := 0.9

/-- `ellipseYScale: 0.92` (line 213). -/
def ellipseYScale : ℝ := 0.92

/-- `veilPush: 220` (line 215). -/
def veilPush : ℝ := 220

/-- `veilReturnTau: 2.4` (line 216). -/
def veilReturnTau : ℝ := 2.4

/-- `veilDriftAmp: 0.09` (line 218). -/
def veilDriftAmp : ℝ := 0.09

/-- `veilDriftFreq: 1.4` (line 219). -/
def veilDriftFreq : ℝ := 1.4

end ORBIT

/-! ## Particle data model (src/main.ts lines 159-178) -/

/-- The `kind` discriminator of a particle: `"orbit" | "veil"`. -/
inductive Kind : Type
  | orbit
  | veil
deriving DecidableEq, Repr

/-- The `Particle` record (lines 159-178).  Numeric fields are reals,
`id` and `lane` are naturals as in the source (both are always
non-negative integers there). -/
structure Particle : Type where
  id : ℕ
  token : String
  color : String
  kind : Kind
  u : ℝ
  biasY : ℝ
  vx : ℝ
  vy : ℝ
  vx0 : ℝ
  vy0 : ℝ
  theta : ℝ
  lane : ℕ
  radiusOffset : ℝ
  omegaOffset : ℝ
  omegaBase : ℝ
  bornAt : ℝ

/-- The mutable module-level store: the two populations
`orbitParticles` / `veilParticles` (lines 186-187), the counters
`nextId` / `orbitCounter` (lines 180-181), and `rng`, the position in the
stream of `Math.random()` draws (randomness is modelled by an explicit
oracle `ρ : ℕ → ℝ` read off at successive positions). -/
structure Store : Type where
  orbit : List Particle
  veil : List Particle
  nextId : ℕ
  orbitCounter : ℕ
  rng : ℕ

/-- `clearAll` (lines 189-196): empties both populations and resets the
counters. -/
def clearAll (s : Store) : Store :=
  { s with orbit := [], veil := [], nextId := 1, orbitCounter := 0 }

/-- The initial store (module initialisation, lines 180-187). -/
def emptyStore : Store :=
  { orbit := [], veil := [], nextId := 1, orbitCounter := 0, rng := 0 }

/-! ## enforceCaps (src/main.ts lines 223-252)

The source function has two numbered phases; we embed each phase as its
own function and compose them, mirroring the early-return structure. -/

/-- Phase 1 of `enforceCaps` (lines 231-234): trim the orbit population
to `laneCapacity * ORBIT_MAX_LANES` by removing from the front
(`splice(0, length - MAX_ORBITS)`). -/
def enforceOrbitCap (s : Store) : Store :=
  let MAX_ORBITS := ORBIT.laneCapacity * ORBIT_MAX_LANES
  if MAX_ORBITS < s.orbit.length then
    { s with orbit := s.orbit.drop (s.orbit.length - MAX_ORBITS) }
  else s

/-- Phase 2 of `enforceCaps` (lines 236-251): if the combined count
exceeds `maxParticles`, remove the excess from the front of the veil
population first (`veilParticles.splice(0, excess)`); only if the veil
population is too small to absorb the excess, empty it and remove the
remainder from the front of the orbit population. -/
def enforceGlobalCap (s : Store) : Store :=
  let MAX_TOTAL := ORBIT.maxParticles
  let total := s.orbit.length + s.veil.length
  if total ≤ MAX_TOTAL then s
  else
    let excess := total - MAX_TOTAL
    if excess ≤ s.veil.length then
      { s with veil := s.veil.drop excess }
    else
      let excess2 := excess - s.veil.length
      { s with veil := [],
               orbit := s.orbit.drop (min excess2 s.orbit.length) }

/-- `enforceCaps` (lines 223-252): phase 1 then phase 2. -/
def enforceCaps (s : Store) : Store :=
  enforceGlobalCap (enforceOrbitCap s)

/-! ## enqueueTokens (src/main.ts lines 291-372) -/

/-- The veil-copy count for a given (already incremented) `orbitCounter`
(lines 330-331): `density = Math.min(1, orbitCounter / 200)` and
`veilCopies = 2 + Math.floor(6 * density)`.  For a natural counter this
equals `2 + min 6 (6 * counter / 200)` with natural (flooring) division:
at or above 200 the min saturates and both give 8, below 200 natural
division is exactly the rational floor.  Every flooring boundary
(`3 * counter ≡ 0 (mod 100)`) is exact in IEEE doubles, so this agrees
with the source's float computation; `veilCopiesOf_eq_floor` below
proves the equality with the literal `floor (6 * min 1 (counter/200))`
formula. -/
def veilCopiesOf (counter : ℕ) : ℕ :=
  2 + min 6 (6 * counter / 200)

/-- The orbit particle pushed for one token (lines 296-327).  `ρ` is the
`Math.random()` oracle; the single draw at `s.rng` is the theta jitter. -/
noncomputable def newOrbitParticle (ρ : ℕ → ℝ) (now : ℝ) (color : String) (t : String)
    (s : Store) : Particle :=
  let orbitSlots := ORBIT.laneCapacity * ORBIT_MAX_LANES
  let iOrbit := s.orbitCounter % orbitSlots
  let lane := iOrbit / ORBIT.laneCapacity
  let idxInLane := iOrbit % ORBIT.laneCapacity
  let theta0 :=
    ((idxInLane : ℝ) / (ORBIT.laneCapacity : ℝ)) * (Real.pi * 2) +
      (ρ s.rng - 0.5) * 0.08
  { id := s.nextId, token := t, color := color, kind := Kind.orbit,
    u := 0, biasY := 0, vx := 0, vy := 0, vx0 := 0, vy0 := 0,
    theta := theta0, lane := lane, radiusOffset := 0, omegaOffset := 0,
    omegaBase := 0.9, bornAt := now }

/-- One veil particle push (lines 333-367), consuming four random draws:
`biasY`, the radial sample `r = sqrt(random)`, the angle, and `theta`. -/
noncomputable def pushVeil (ρ : ℕ → ℝ) (now : ℝ) (color : String) (t : String)
    (s : Store) : Store :=
  let biasY := -0.65 + ρ s.rng * 0.35
  let r := Real.sqrt (ρ (s.rng + 1))
  let ang := ρ (s.rng + 2) * (Real.pi * 2)
  let vx := r * Real.cos ang
  let vy := r * Real.sin ang
  let u := r
  let p : Particle :=
    { id := s.nextId, token := t, color := color, kind := Kind.veil,
      u := u, biasY := biasY, vx := vx, vy := vy, vx0 := vx, vy0 := vy,
      theta := ρ (s.rng + 3) * (Real.pi * 2), lane := 0,
      radiusOffset := 0, omegaOffset := 0, omegaBase := 0.45,
      bornAt := now }
  { s with veil := s.veil ++ [p], nextId := s.nextId + 1,
           rng := s.rng + 4 }

/-- The per-token body of the `for (const t of tokens)` loop
(lines 296-368): push one orbit particle (post-incrementing
`orbitCounter`), then push `veilCopies` veil particles. -/
noncomputable def enqueueToken (ρ : ℕ → ℝ) (now : ℝ) (color : String) (s : Store)
    (t : String) : Store :=
  let p := newOrbitParticle ρ now color t s
  let s1 : Store :=
    { s with orbit := s.orbit ++ [p], nextId := s.nextId + 1,
             orbitCounter := s.orbitCounter + 1, rng := s.rng + 1 }
  let copies := veilCopiesOf s1.orbitCounter
  (List.range copies).foldl (fun acc _ => pushVeil ρ now color t acc) s1

/-- `enqueueTokens` (lines 291-372) applied to an already tokenized list
(the source first calls `tokenizeMixed(text)`, which lives in the
DOM/Intl layer; see `commitThought` below for the fallible tokenizer):
loop over the tokens, then `enforceCaps()`. -/
noncomputable def enqueueTokens (ρ : ℕ → ℝ) (now : ℝ) (color : String)
    (tokens : List String) (s : Store) : Store :=
  enforceCaps (tokens.foldl (enqueueToken ρ now color) s)

/-- A whole session suffix: fold a list of commits (each one token list)
through `enqueueTokens`. -/
noncomputable def commitSeq (ρ : ℕ → ℝ) (now : ℝ) (color : String)
    (commits : List (List String)) (s : Store) : Store :=
  commits.foldl (fun acc ts => enqueueTokens ρ now color ts acc) s

/-! ## commitThought (src/main.ts lines 795-808)

`commitThought` trims the input, then runs `enqueueTokens(text)` inside
`try { ... } catch { console.error(...) }`.  Inside `enqueueTokens` the
only fallible step is `tokenizeMixed` (Intl machinery on pathological
input); it runs to completion before any particle is pushed, and every
later step in the loop is total (arithmetic, `Math.*`, `push`).  We
therefore model the tokenizer as an explicit fallible parameter. -/

/-- `enqueueTokens(text)` with its leading fallible `tokenizeMixed` call
(line 292): tokenization errors propagate before any mutation. -/
noncomputable def enqueueTokensE (tokenize : String → Except String (List String))
    (ρ : ℕ → ℝ) (now : ℝ) (color : String) (text : String) (s : Store) :
    Except String Store :=
  match tokenize text with
  | Except.error e => Except.error e
  | Except.ok ts => Except.ok (enqueueTokens ρ now color ts s)

/-- `commitThought` (lines 795-808): trim, ignore blank input, and catch
any error thrown by `enqueueTokens` at the boundary (the catch only
logs, leaving the store as it was). -/
noncomputable def commitThought (tokenize : String → Except String (List String))
    (ρ : ℕ → ℝ) (now : ℝ) (color : String) (raw : String) (s : Store) :
    Store :=
  let text := raw.trim
  if text = "" then s
  else
    match enqueueTokensE tokenize ρ now color text s with
    | Except.error _ => s
    | Except.ok s1 => s1

/-! ## expDecay (src/main.ts lines 374-378) -/

/-- `expDecay(value, dt, tau) = value * exp(-dt / Math.max(0.0001, tau))`. -/
noncomputable def expDecay (value dt tau : ℝ) : ℝ :=
  let k := Real.exp (-(dt / max 0.0001 tau))
  value * k

/-! ## Frame time step (src/main.ts lines 588-589) -/

/-- `const dt = Math.min(0.05, (now - lastT) / 1000)` — the wall-clock
delta in milliseconds, converted to seconds and clamped to `0.05`. -/
noncomputable def computeDt (now lastT : ℝ) : ℝ :=
  min 0.05 ((now - lastT) / 1000)

/-! ## Drawable computation (src/main.ts lines 591-635) -/

/-- One element of the per-frame `drawable` array: the particle together
with its screen position and depth `sin(theta)` (lines 605-635). -/
structure Drawable : Type where
  p : Particle
  x : ℝ
  y : ℝ
  depth : ℝ

/-- The `drawable` map body (lines 605-635): orbit particles lie on
their lane ellipse, veil particles at the rotated, ellipse-scaled local
coordinates (with the display clamp on `vy`); `depth = sin(theta)`. -/
noncomputable def mkDrawable (headX headY baseR veilRx veilRy : ℝ)
    (p : Particle) : Drawable :=
  match p.kind with
  | Kind.orbit =>
    let laneR := baseR + (p.lane : ℝ) * ORBIT.laneGap + p.radiusOffset
    let a := laneR
    let b := laneR * ORBIT.ellipseYScale
    { p := p, x := headX + a * Real.cos p.theta,
      y := headY + b * Real.sin p.theta, depth := Real.sin p.theta }
  | Kind.veil =>
    let phi := p.theta
    let c := Real.cos phi
    let s := Real.sin phi
    let vx := p.vx
    let vy := max (-0.95) (min 0.95 p.vy)
    let rvx := vx * c - vy * s
    let rvy := vx * s + vy * c
    { p := p, x := headX + veilRx * rvx,
      y := headY + veilRy * rvy + p.biasY * veilRy * 0.12,
      depth := Real.sin p.theta }

/-! ## Brush interaction (src/main.ts lines 638-680) -/

/-- The per-drawable body of the brush loop when a fingertip is present
(lines 639-679): within the influence radius, veil particles get a
screen-space push converted into their local frame and clamped; orbit
particles get a radial and angular kick.  `dist` is
`Math.hypot(dx, dy)`. -/
noncomputable def applyBrush (finger : ℝ × ℝ) (veilRx veilRy dt : ℝ)
    (d : Drawable) : Particle :=
  let dx := d.x - finger.1
  let dy := d.y - finger.2
  let dist := Real.sqrt (dx ^ 2 + dy ^ 2)
  if dist < ORBIT.influenceRadius then
    let t := 1 - dist / ORBIT.influenceRadius
    match d.p.kind with
    | Kind.veil =>
      let nx := dx / (dist + 1e-6)
      let ny := dy / (dist + 1e-6)
      let pushPx := ORBIT.veilPush * t * dt
      let phi := d.p.theta
      let c := Real.cos phi
      let s := Real.sin phi
      let lx := nx * pushPx / (veilRx + 1e-6)
      let ly := ny * pushPx / (veilRy + 1e-6)
      let dvx := c * lx + s * ly
      let dvy := -s * lx + c * ly
      let vx1 := d.p.vx + dvx
      let vy1 := d.p.vy + dvy
      { d.p with vx := max (-1.2) (min 1.2 vx1),
                 vy := max (-0.95) (min 0.95 vy1) }
    | Kind.orbit =>
      { d.p with
          radiusOffset := d.p.radiusOffset + ORBIT.repelStrength * t * dt,
          omegaOffset := d.p.omegaOffset + ORBIT.swirlStrength * t * dt }
  else d.p

/-! ## Per-frame particle update (src/main.ts lines 682-714) -/

/-- The "Update angles + decay" loop body (lines 683-713): decay the
transient offsets, advance `theta` by
`(omegaBase * speedMultiplier + omegaOffset) * dt`, and for veil
particles relax the local coordinates toward the drifting rest target
(reading the already advanced `theta`), clamping to `±1.4`. -/
noncomputable def updateParticle (speedMultiplier dt : ℝ) (p : Particle) :
    Particle :=
  let r := expDecay p.radiusOffset dt ORBIT.tauRadius
  let o := expDecay p.omegaOffset dt ORBIT.tauOmega
  let omega := p.omegaBase * speedMultiplier + o
  let theta := p.theta + omega * dt
  match p.kind with
  | Kind.orbit =>
    { p with radiusOffset := r, omegaOffset := o, theta := theta }
  | Kind.veil =>
    let phase := theta * ORBIT.veilDriftFreq
    let amp := ORBIT.veilDriftAmp * (0.35 + 0.65 * p.u)
    let j := (p.id : ℝ) * 0.37
    let targetVx := p.vx0 + amp * Real.cos (phase + j)
    let targetVy := p.vy0 + amp * Real.sin (phase * 0.9 + j)
    let k := Real.exp (-(dt / ORBIT.veilReturnTau))
    let vx := targetVx + (p.vx - targetVx) * k
    let vy := targetVy + (p.vy - targetVy) * k
    { p with radiusOffset := r, omegaOffset := o, theta := theta,
             vx := max (-1.4) (min 1.4 vx),
             vy := max (-1.4) (min 1.4 vy) }

/-! ## Draw passes (src/main.ts lines 742-778) -/

/-- Membership in the clipped behind-head orbit pass (lines 759-763):
the pass skips non-orbit particles and skips `depth >= 0`. -/
def drawnInBehindPass (d : Drawable) : Prop :=
  d.p.kind = Kind.orbit ∧ d.depth < 0

/-- Membership in the unclipped front orbit pass (lines 774-778):
the pass skips non-orbit particles and skips `depth < 0`. -/
def drawnInFrontPass (d : Drawable) : Prop :=
  d.p.kind = Kind.orbit ∧ 0 ≤ d.depth

/-! ## Coordinate mapping (src/main.ts lines 420-443) -/

/-- `mapNormToScreen` (lines 420-443): cover scale, centring crop
offset, then horizontal mirror.  `vw, vh` are the source video pixel
dimensions, `sw, sh` the viewport dimensions. -/
noncomputable def mapNormToScreen (vw vh sw sh nx ny : ℝ) : ℝ × ℝ :=
  let scale := max (sw / vw) (sh / vh)
  let rw := vw * scale
  let rh := vh * scale
  let ox := (rw - sw) / 2
  let oy := (rh - sh) / 2
  let x := nx * vw * scale - ox
  let y := ny * vh * scale - oy
  (sw - x, y)

/-! ## Iterated decay (for the convergence property) -/

/-- `n` ticks of the per-tick decay applied to one offset value. -/
noncomputable def decayIter (dt tau v : ℝ) (n : ℕ) : ℝ :=
  (fun x => expDecay x dt tau)^[n] v

/-! ## Concrete sample data used by witnesses and counterexamples -/

/-- A sample orbit particle (as created by a commit) used to witness the
pass-exclusivity theorem. -/
noncomputable def sampleOrbitDrawable : Drawable :=
  mkDrawable 0 0 100 120 130
    { id := 1, token := "A", color := "c", kind := Kind.orbit, u := 0,
      biasY := 0, vx := 0, vy := 0, vx0 := 0, vy0 := 0, theta := 0,
      lane := 0, radiusOffset := 0, omegaOffset := 0, omegaBase := 0.9,
      bornAt := 0 }

/-- A tokenizer that always fails, standing in for `tokenizeMixed`
throwing on pathological input. -/
def failingTokenizer : String → Except String (List String) :=
  fun _ => Except.error "Intl failure"

/-- A sample veil particle with the fingertip-relevant fields set, and
its drawable entry at an arbitrary screen position. -/
noncomputable def sampleVeilDrawable : Drawable :=
  { p := { id := 7, token := "A", color := "c", kind := Kind.veil,
           u := 0.5, biasY := -0.4, vx := 0.3, vy := 0.2, vx0 := 0.3,
           vy0 := 0.2, theta := 0, lane := 0, radiusOffset := 0,
           omegaOffset := 0, omegaBase := 0.45, bornAt := 0 },
    x := 5, y := 7, depth := 0 }

/-- A store whose orbit population is exactly full: 192 orbit particles
with ids 1..192 in insertion order (the particle at position `i` was
inserted at counter value `i`), `orbitCounter = 192`, empty veil. -/
noncomputable def fullOrbitStore : Store :=
  { orbit := (List.range (ORBIT.laneCapacity * ORBIT_MAX_LANES)).map
      (fun i =>
        { id := i + 1, token := "x", color := "c", kind := Kind.orbit,
          u := 0, biasY := 0, vx := 0, vy := 0, vx0 := 0, vy0 := 0,
          theta := 0, lane := i / ORBIT.laneCapacity, radiusOffset := 0,
          omegaOffset := 0, omegaBase := 0.9, bornAt := 0 }),
    veil := [], nextId := 193, orbitCounter := 192, rng := 0 }

/-! ## Basic facts about the decay factor -/

/-- The guarded time constant is strictly positive. -/
theorem max_tau_pos (tau : ℝ) : (0 : ℝ) < max 0.0001 tau :=
  lt_of_lt_of_le (by norm_num) (le_max_left _ _)

/-- Closed form for the iterated decay. -/
theorem decayIter_eq (dt tau v : ℝ) (n : ℕ) :
    decayIter dt tau v n = v * (Real.exp (-(dt / max 0.0001 tau))) ^ n := by
  induction n with
  | zero => simp [decayIter]
  | succ n ih =>
    unfold decayIter at ih ⊢
    rw [Function.iterate_succ_apply', ih, expDecay, pow_succ]
    ring

/-- C10: for every value, every `dt ≥ 0` and every `tau` (including zero
and negative values), `expDecay` equals
`value * exp(-dt / max(0.0001, tau))`; the guarded denominator is
strictly positive (so the division is by a nonzero number), the result
has the same sign as the input (or is zero), and its magnitude never
exceeds the input's. -/
theorem expDecay_safety (value dt tau : ℝ) (hdt : 0 ≤ dt) :
    expDecay value dt tau = value * Real.exp (-(dt / max 0.0001 tau)) ∧
    (0 : ℝ) < max 0.0001 tau ∧
    |expDecay value dt tau| ≤ |value| ∧
    (0 < value → 0 < expDecay value dt tau) ∧
    (value < 0 → expDecay value dt tau < 0) ∧
    (value = 0 → expDecay value dt tau = 0) := by
  have hm := max_tau_pos tau
  have hk0 : 0 < Real.exp (-(dt / max 0.0001 tau)) := Real.exp_pos _
  have hk1 : Real.exp (-(dt / max 0.0001 tau)) ≤ 1 := by
    rw [Real.exp_le_one_iff]
    have : 0 ≤ dt / max 0.0001 tau := div_nonneg hdt hm.le
    linarith
  refine ⟨rfl, hm, ?_, ?_, ?_, ?_⟩
  · rw [expDecay, abs_mul, abs_of_pos hk0]
    calc |value| * Real.exp (-(dt / max 0.0001 tau)) ≤ |value| * 1 :=
          mul_le_mul_of_nonneg_left hk1 (abs_nonneg value)
      _ = |value| := mul_one _
  · exact fun hv => mul_pos hv hk0
  · exact fun hv => mul_neg_of_neg_of_pos hv hk0
  · intro hv; rw [expDecay, hv, zero_mul]

/-- Witness for `expDecay_safety` at `value = 1`, `dt = 0`, `tau = 1`. -/
theorem expDecay_safety_witness :
    (0 : ℝ) ≤ 0 ∧
    (expDecay 1 0 1 = 1 * Real.exp (-(0 / max 0.0001 1)) ∧
     (0 : ℝ) < max 0.0001 1 ∧
     |expDecay 1 0 1| ≤ |(1 : ℝ)| ∧
     ((0 : ℝ) < 1 → 0 < expDecay 1 0 1) ∧
     ((1 : ℝ) < 0 → expDecay 1 0 1 < 0) ∧
     ((1 : ℝ) = 0 → expDecay 1 0 1 = 0)) :=
  ⟨le_refl 0, expDecay_safety 1 0 1 (le_refl 0)⟩

/-- C5: for any fixed `dt > 0` and `tau > 0`, the iterated per-tick
decay tends to `0` as the tick count tends to infinity and every iterate
keeps the sign of the initial value. -/
theorem decay_iterates_tendsto (dt tau v : ℝ) (hdt : 0 < dt)
    (htau : 0 < tau) :
    Filter.Tendsto (decayIter dt tau v) Filter.atTop (nhds 0) ∧
    (∀ n, 0 < v → 0 < decayIter dt tau v n) ∧
    (∀ n, v < 0 → decayIter dt tau v n < 0) ∧
    (∀ n, v = 0 → decayIter dt tau v n = 0) := by
  have hm := max_tau_pos tau
  have hk0 : 0 < Real.exp (-(dt / max 0.0001 tau)) := Real.exp_pos _
  have hk1 : Real.exp (-(dt / max 0.0001 tau)) < 1 := by
    rw [Real.exp_lt_one_iff]
    exact neg_lt_zero.mpr (div_pos hdt hm)
  refine ⟨?_, ?_, ?_, ?_⟩
  · have h := tendsto_pow_atTop_nhds_zero_of_lt_one hk0.le hk1
    have h2 := h.const_mul v
    rw [mul_zero] at h2
    exact h2.congr fun n => (decayIter_eq dt tau v n).symm
  · intro n hv
    rw [decayIter_eq]
    exact mul_pos hv (pow_pos hk0 n)
  · intro n hv
    rw [decayIter_eq]
    exact mul_neg_of_neg_of_pos hv (pow_pos hk0 n)
  · intro n hv
    rw [decayIter_eq, hv, zero_mul]

/-- Witness for `decay_iterates_tendsto` at `dt = 1`, `tau = 1`,
`v = 1`. -/
theorem decay_iterates_tendsto_witness :
    ((0 : ℝ) < 1 ∧ (0 : ℝ) < 1) ∧
    (Filter.Tendsto (decayIter 1 1 1) Filter.atTop (nhds 0) ∧
     (∀ n, (0 : ℝ) < 1 → 0 < decayIter 1 1 1 n) ∧
     (∀ n, (1 : ℝ) < 0 → decayIter 1 1 1 n < 0) ∧
     (∀ n, (1 : ℝ) = 0 → decayIter 1 1 1 n = 0)) :=
  ⟨⟨one_pos, one_pos⟩, decay_iterates_tendsto 1 1 1 one_pos one_pos⟩

/-- C4: the per-frame time step is the wall-clock delta in seconds
clamped to `0.05`, so a particle updated with a raw frame delta of 1000
seconds (a wall-clock delta of 1000000 ms) evolves identically — same
`theta`, `radiusOffset`, `omegaOffset`, `vx`, `vy` (the update returns
the whole record) — to the same particle updated with a raw delta of
exactly 0.05 seconds.  This covers in particular the orbit particle
created for a single committed token "A". -/
theorem dt_clamp_large_delta_equiv (p : Particle) (sm lastT : ℝ) :
    computeDt (lastT + 1000 * 1000) lastT = 0.05 ∧
    updateParticle sm (computeDt (lastT + 1000 * 1000) lastT) p =
      updateParticle sm (computeDt (lastT + 0.05 * 1000) lastT) p := by
  have h1 : computeDt (lastT + 1000 * 1000) lastT = 0.05 := by
    unfold computeDt
    have e : (lastT + 1000 * 1000 - lastT) / 1000 = (1000 : ℝ) := by ring
    rw [e, min_eq_left (by norm_num : (0.05 : ℝ) ≤ 1000)]
  have h2 : computeDt (lastT + 0.05 * 1000) lastT = 0.05 := by
    unfold computeDt
    have e : (lastT + 0.05 * 1000 - lastT) / 1000 = (0.05 : ℝ) := by ring
    rw [e, min_self]
  exact ⟨h1, by rw [h1, h2]⟩

/-- C9: when the source and viewport aspect ratios match, the normalized
centre `(0.5, 0.5)` maps to the horizontal mirror of the viewport's
horizontal centre, `x = viewportW / 2`. -/
theorem mapNormToScreen_center_aspect_match (vw vh sw sh : ℝ)
    (hvw : 0 < vw) (hvh : 0 < vh) (haspect : sw / vw = sh / vh) :
    (mapNormToScreen vw vh sw sh 0.5 0.5).1 = sw / 2 := by
  unfold mapNormToScreen
  rw [← haspect, max_self]
  field_simp
  ring

/-- Witness for `mapNormToScreen_center_aspect_match` with a 640x480
source and a 1280x960 viewport. -/
theorem mapNormToScreen_center_witness :
    ((0 : ℝ) < 640 ∧ (0 : ℝ) < 480 ∧ (1280 : ℝ) / 640 = (960 : ℝ) / 480) ∧
    (mapNormToScreen 640 480 1280 960 0.5 0.5).1 = 1280 / 2 :=
  ⟨⟨by norm_num, by norm_num, by norm_num⟩,
   mapNormToScreen_center_aspect_match 640 480 1280 960 (by norm_num)
     (by norm_num) (by norm_num)⟩

/-- C3: for any orbit particle in the drawable set, a strictly negative
depth puts it only in the clipped behind-head pass, a non-negative depth
only in the unclipped front pass, and no drawable is in both passes. -/
theorem orbit_depth_pass_exclusive (d : Drawable)
    (h : d.p.kind = Kind.orbit) :
    (d.depth < 0 → drawnInBehindPass d ∧ ¬ drawnInFrontPass d) ∧
    (0 ≤ d.depth → drawnInFrontPass d ∧ ¬ drawnInBehindPass d) ∧
    ¬ (drawnInBehindPass d ∧ drawnInFrontPass d) := by
  unfold drawnInBehindPass drawnInFrontPass
  refine ⟨?_, ?_, ?_⟩
  · intro hd
    exact ⟨⟨h, hd⟩, fun hf => absurd hf.2 (not_le.mpr hd)⟩
  · intro hd
    exact ⟨⟨h, hd⟩, fun hb => absurd hd (not_le.mpr hb.2)⟩
  · rintro ⟨⟨_, h1⟩, ⟨_, h2⟩⟩
    exact absurd h2 (not_le.mpr h1)

/-- Witness for `orbit_depth_pass_exclusive` on a concrete drawable. -/
theorem orbit_depth_pass_exclusive_witness :
    sampleOrbitDrawable.p.kind = Kind.orbit ∧
    ((sampleOrbitDrawable.depth < 0 →
        drawnInBehindPass sampleOrbitDrawable ∧
        ¬ drawnInFrontPass sampleOrbitDrawable) ∧
     (0 ≤ sampleOrbitDrawable.depth →
        drawnInFrontPass sampleOrbitDrawable ∧
        ¬ drawnInBehindPass sampleOrbitDrawable) ∧
     ¬ (drawnInBehindPass sampleOrbitDrawable ∧
        drawnInFrontPass sampleOrbitDrawable)) :=
  ⟨rfl, orbit_depth_pass_exclusive sampleOrbitDrawable rfl⟩

/-- C2: the global-cap phase of `enforceCaps` only ever removes a prefix
(the oldest-inserted elements) of the veil population, touches the orbit
population only when it has emptied the veil population entirely, and
does nothing while the combined count is within `maxParticles`. -/
theorem globalCap_evicts_veil_oldest_first (s : Store) :
    (enforceGlobalCap s).veil =
      s.veil.drop (s.veil.length - (enforceGlobalCap s).veil.length) ∧
    ((enforceGlobalCap s).orbit ≠ s.orbit → (enforceGlobalCap s).veil = []) ∧
    (s.orbit.length + s.veil.length ≤ ORBIT.maxParticles →
      enforceGlobalCap s = s) := by
  unfold enforceGlobalCap
  dsimp only
  split_ifs with h1 h2
  · exact ⟨by simp, fun hc => absurd rfl hc, fun _ => rfl⟩
  · refine ⟨?_, fun hc => absurd rfl hc, fun hc => absurd hc h1⟩
    simp only [List.length_drop]
    rw [Nat.sub_sub_self h2]
  · refine ⟨?_, fun _ => rfl, fun hc => absurd hc h1⟩
    simp

/-- After phase 1 the orbit population is within the orbit budget and
the veil population is untouched. -/
theorem enforceOrbitCap_spec (s : Store) :
    (enforceOrbitCap s).orbit.length ≤ ORBIT.laneCapacity * ORBIT_MAX_LANES ∧
    (enforceOrbitCap s).veil = s.veil := by
  unfold enforceOrbitCap
  dsimp only
  split_ifs with h
  · refine ⟨?_, rfl⟩
    simp only [List.length_drop]
    omega
  · exact ⟨le_of_not_lt h, rfl⟩

/-- Phase 2 keeps the orbit population no longer than it was and brings
the combined count within `maxParticles`, provided the incoming orbit
population is within the global cap. -/
theorem enforceGlobalCap_spec (s : Store)
    (h : s.orbit.length ≤ ORBIT.maxParticles) :
    (enforceGlobalCap s).orbit.length ≤ s.orbit.length ∧
    (enforceGlobalCap s).orbit.length + (enforceGlobalCap s).veil.length ≤
      ORBIT.maxParticles := by
  unfold enforceGlobalCap
  dsimp only
  split_ifs with h1 h2
  · exact ⟨le_refl _, h1⟩
  · refine ⟨le_refl _, ?_⟩
    simp only [List.length_drop]
    omega
  · refine ⟨?_, ?_⟩ <;> simp only [List.length_drop, List.length_nil] <;> omega

/-- `enforceCaps` establishes both capacity invariants from any state. -/
theorem enforceCaps_spec (s : Store) :
    (enforceCaps s).orbit.length ≤ ORBIT.laneCapacity * ORBIT_MAX_LANES ∧
    (enforceCaps s).orbit.length + (enforceCaps s).veil.length ≤
      ORBIT.maxParticles := by
  have h1 := enforceOrbitCap_spec s
  have h2 := enforceGlobalCap_spec (enforceOrbitCap s)
    (le_trans h1.1 (by norm_num [ORBIT.laneCapacity, ORBIT_MAX_LANES,
      ORBIT.maxParticles]))
  exact ⟨le_trans h2.1 h1.1, h2.2⟩

/-- C1: after every commit in any sequence of commits from any starting
state, the orbit population is at most
`laneCapacity * ORBIT_MAX_LANES = 192` and the combined orbit-plus-veil
population is at most `maxParticles = 600` (a state "after a commit" is
`commitSeq` applied to a commit list ending with that commit). -/
theorem commit_sequence_respects_caps (ρ : ℕ → ℝ) (now : ℝ)
    (color : String) (commits : List (List String)) (tokens : List String)
    (s : Store) :
    (commitSeq ρ now color (commits ++ [tokens]) s).orbit.length ≤
      ORBIT.laneCapacity * ORBIT_MAX_LANES ∧
    (commitSeq ρ now color (commits ++ [tokens]) s).orbit.length +
      (commitSeq ρ now color (commits ++ [tokens]) s).veil.length ≤
      ORBIT.maxParticles := by
  have e : commitSeq ρ now color (commits ++ [tokens]) s =
      enqueueTokens ρ now color tokens (commitSeq ρ now color commits s) := by
    unfold commitSeq
    rw [List.foldl_append, List.foldl_cons, List.foldl_nil]
  rw [e]
  unfold enqueueTokens
  exact enforceCaps_spec _

/-- C7: if tokenization fails during a text commit, the error is caught
at the commit boundary and the particle populations (indeed the whole
store) are exactly as they were before the commit began.  Tokenization
is the only fallible stage of `enqueueTokens`: it runs to completion
before any particle is pushed, and every later step of the creation loop
is total, so no partial commit can be retained. -/
theorem commit_error_leaves_state_unchanged
    (tokenize : String → Except String (List String)) (ρ : ℕ → ℝ)
    (now : ℝ) (color raw : String) (s : Store) (e : String)
    (h : tokenize raw.trim = Except.error e) :
    commitThought tokenize ρ now color raw s = s := by
  unfold commitThought enqueueTokensE
  dsimp only
  rw [h]
  split_ifs with h1
  · rfl
  · rfl

/-- Witness for `commit_error_leaves_state_unchanged` on a concrete
failing commit. -/
theorem commit_error_leaves_state_unchanged_witness :
    failingTokenizer ("A".trim) = Except.error "Intl failure" ∧
    commitThought failingTokenizer (fun _ => 0) 0 "c" "A" emptyStore =
      emptyStore :=
  ⟨rfl, commit_error_leaves_state_unchanged failingTokenizer (fun _ => 0)
    0 "c" "A" emptyStore "Intl failure" rfl⟩

/-- C8 (amended): with the fingertip exactly at a veil particle's
current screen position, `dist = 0` and the epsilon-guarded direction
vector `(dx/(dist+1e-6), dy/(dist+1e-6))` is the zero vector, so the
brush applies no push at all: provided the particle's local coordinates
are within the brush clamp ranges, the brushed particle is unchanged and
one full update step yields exactly the same `(vx, vy)` (indeed the same
particle) as a frame with no fingertip present. -/
theorem fingertip_zero_distance_no_push (d : Drawable)
    (veilRx veilRy dt sm : ℝ) (hkind : d.p.kind = Kind.veil)
    (hvx1 : -1.2 ≤ d.p.vx) (hvx2 : d.p.vx ≤ 1.2)
    (hvy1 : -0.95 ≤ d.p.vy) (hvy2 : d.p.vy ≤ 0.95) :
    applyBrush (d.x, d.y) veilRx veilRy dt d = d.p ∧
    updateParticle sm dt (applyBrush (d.x, d.y) veilRx veilRy dt d) =
      updateParticle sm dt d.p := by
  have hb : applyBrush (d.x, d.y) veilRx veilRy dt d = d.p := by
    unfold applyBrush
    dsimp only
    simp only [sub_self]
    have h0 : Real.sqrt ((0 : ℝ) ^ 2 + 0 ^ 2) = 0 := by
      norm_num
    rw [h0,
      if_pos (by norm_num [ORBIT.influenceRadius] :
        (0 : ℝ) < ORBIT.influenceRadius)]
    simp only [hkind]
    simp only [zero_div, zero_mul, mul_zero, add_zero, zero_add]
    rw [min_eq_right hvx2, max_eq_right hvx1, min_eq_right hvy2,
      max_eq_right hvy1, ← hkind]
  exact ⟨hb, by rw [hb]⟩

/-- Witness for `fingertip_zero_distance_no_push` on a concrete veil
drawable. -/
theorem fingertip_zero_distance_no_push_witness :
    (sampleVeilDrawable.p.kind = Kind.veil ∧
     (-1.2 : ℝ) ≤ sampleVeilDrawable.p.vx ∧
     sampleVeilDrawable.p.vx ≤ 1.2 ∧
     (-0.95 : ℝ) ≤ sampleVeilDrawable.p.vy ∧
     sampleVeilDrawable.p.vy ≤ 0.95) ∧
    (applyBrush (sampleVeilDrawable.x, sampleVeilDrawable.y) 100 120 0.05
        sampleVeilDrawable = sampleVeilDrawable.p ∧
     updateParticle 0.9 0.05
        (applyBrush (sampleVeilDrawable.x, sampleVeilDrawable.y) 100 120
          0.05 sampleVeilDrawable) =
       updateParticle 0.9 0.05 sampleVeilDrawable.p) :=
  ⟨⟨rfl, by norm_num [sampleVeilDrawable], by norm_num [sampleVeilDrawable],
    by norm_num [sampleVeilDrawable], by norm_num [sampleVeilDrawable]⟩,
   fingertip_zero_distance_no_push sampleVeilDrawable 100 120 0.05 0.9 rfl
     (by norm_num [sampleVeilDrawable]) (by norm_num [sampleVeilDrawable])
     (by norm_num [sampleVeilDrawable]) (by norm_num [sampleVeilDrawable])⟩

/-- C8 (counterexample): with the fingertip exactly at the sample veil
particle's screen position, one update step produces exactly the same
particle as a frame with no fingertip, so the magnitude of `(vx, vy)`
does not strictly increase, contrary to the claim. -/
theorem fingertip_zero_distance_counterexample :
    updateParticle 0.9 0.05
        (applyBrush (sampleVeilDrawable.x, sampleVeilDrawable.y) 100 120
          0.05 sampleVeilDrawable) =
      updateParticle 0.9 0.05 sampleVeilDrawable.p ∧
    ¬ ((updateParticle 0.9 0.05 sampleVeilDrawable.p).vx ^ 2 +
         (updateParticle 0.9 0.05 sampleVeilDrawable.p).vy ^ 2 <
       (updateParticle 0.9 0.05
          (applyBrush (sampleVeilDrawable.x, sampleVeilDrawable.y) 100 120
            0.05 sampleVeilDrawable)).vx ^ 2 +
       (updateParticle 0.9 0.05
          (applyBrush (sampleVeilDrawable.x, sampleVeilDrawable.y) 100 120
            0.05 sampleVeilDrawable)).vy ^ 2) := by
  have hb : applyBrush (sampleVeilDrawable.x, sampleVeilDrawable.y) 100 120
      0.05 sampleVeilDrawable = sampleVeilDrawable.p := by
    unfold applyBrush sampleVeilDrawable
    dsimp only
    simp only [sub_self]
    have h0 : Real.sqrt ((0 : ℝ) ^ 2 + 0 ^ 2) = 0 := by norm_num
    rw [h0,
      if_pos (by norm_num [ORBIT.influenceRadius] :
        (0 : ℝ) < ORBIT.influenceRadius)]
    simp only [zero_div, zero_mul, mul_zero, add_zero, zero_add]
    rw [min_eq_right (by norm_num : (0.3 : ℝ) ≤ 1.2),
      max_eq_right (by norm_num : (-1.2 : ℝ) ≤ 0.3),
      min_eq_right (by norm_num : (0.2 : ℝ) ≤ 0.95),
      max_eq_right (by norm_num : (-0.95 : ℝ) ≤ 0.2)]
  refine ⟨by rw [hb], ?_⟩
  rw [hb]
  exact lt_irrefl _

set_option maxRecDepth 20000 in
/-- C6 (counterexample): committing one token "A" into the full orbit
population does evict the oldest orbit particle FIFO from the front of
the population — ids go from 1..192 to 2..193, with the new particle
(id 193) appended at the back rather than overwriting the array slot of
the evicted one. -/
theorem orbit_overflow_fifo_counterexample :
    (fullOrbitStore.orbit.map Particle.id).head? = some 1 ∧
    ((enqueueTokens (fun _ => 0) 0 "c" ["A"] fullOrbitStore).orbit.map
        Particle.id) = List.range' 2 192 := by
  constructor
  · decide
  · decide

/-- The natural-arithmetic veil-copy count agrees with the source's
`2 + floor (6 * min 1 (counter / 200))` formula. -/
theorem veilCopiesOf_eq_floor (counter : ℕ) :
    veilCopiesOf counter =
      2 + Nat.floor ((6 : ℚ) * min 1 ((counter : ℚ) / 200)) := by
  unfold veilCopiesOf
  rcases le_or_lt 200 counter with h | h
  · have h1 : min 1 ((counter : ℚ) / 200) = 1 := by
      rw [min_eq_left]
      rw [le_div_iff (by norm_num)]
      exact_mod_cast by linarith [h]
    rw [h1]
    norm_num
    omega
  · have h1 : min 1 ((counter : ℚ) / 200) = (counter : ℚ) / 200 := by
      rw [min_eq_right]
      rw [div_le_one (by norm_num)]
      exact_mod_cast h.le
    rw [h1]
    have h2 : (6 : ℚ) * ((counter : ℚ) / 200) = ((6 * counter : ℕ) : ℚ) / ((200 : ℕ) : ℚ) := by
      push_cast
      ring
    rw [h2, Nat.floor_div_nat, Nat.floor_natCast]
    have h3 : 6 * counter / 200 < 6 := by omega
    omega

/-- The veil-push loop never touches the orbit population. -/
theorem foldPushVeil_orbit (ρ : ℕ → ℝ) (now : ℝ) (color t : String)
    (n : ℕ) (s : Store) :
    ((List.range n).foldl (fun acc _ => pushVeil ρ now color t acc)
      s).orbit = s.orbit := by
  induction n generalizing s with
  | zero => rfl
  | succ n ih =>
    rw [List.range_succ, List.foldl_append, List.foldl_cons,
      List.foldl_nil]
    rw [show ∀ x : Store, (pushVeil ρ now color t x).orbit = x.orbit
      from fun _ => rfl]
    exact ih s

/-- The veil-push loop appends exactly `n` veil particles. -/
theorem foldPushVeil_veil_length (ρ : ℕ → ℝ) (now : ℝ) (color t : String)
    (n : ℕ) (s : Store) :
    ((List.range n).foldl (fun acc _ => pushVeil ρ now color t acc)
      s).veil.length = s.veil.length + n := by
  induction n generalizing s with
  | zero => rfl
  | succ n ih =>
    rw [List.range_succ, List.foldl_append, List.foldl_cons,
      List.foldl_nil]
    rw [show ∀ x : Store,
        (pushVeil ρ now color t x).veil.length = x.veil.length + 1
      from fun x => by
        simp [pushVeil]]
    rw [ih s]
    omega

/-- `enforceCaps` on a store whose orbit population is one over budget
and whose total is within the global cap simply drops the front orbit
particle. -/
theorem enforceCaps_one_over (s : Store)
    (h : s.orbit.length = ORBIT.laneCapacity * ORBIT_MAX_LANES + 1)
    (ht : s.veil.length ≤
      ORBIT.maxParticles - (ORBIT.laneCapacity * ORBIT_MAX_LANES + 1)) :
    enforceCaps s = { s with orbit := s.orbit.drop 1 } := by
  unfold enforceCaps enforceOrbitCap enforceGlobalCap
  simp only [ORBIT.laneCapacity, ORBIT_MAX_LANES, ORBIT.maxParticles] at h ht ⊢
  rw [if_pos (show 16 * 12 < s.orbit.length by omega)]
  dsimp only
  rw [if_pos (show (s.orbit.drop (s.orbit.length - 16 * 12)).length +
      s.veil.length ≤ 600 by simp only [List.length_drop]; omega)]
  have e : s.orbit.length - 16 * 12 = 1 := by omega
  rw [e]

/-- C6 (amended): when the orbit population is full, committing one more
token appends the new orbit particle at the back and evicts the oldest
orbit particle FIFO from the front (the population is never overwritten
in place); the new particle's geometric slot — its lane and index within
the lane — is selected by the monotonic commit counter modulo the orbit
capacity, so in a counter-consistent population it reuses exactly the
slot vacated by the evicted oldest particle. -/
theorem orbit_overflow_fifo_amended (ρ : ℕ → ℝ) (now : ℝ)
    (color t : String) (s : Store)
    (hfull : s.orbit.length = ORBIT.laneCapacity * ORBIT_MAX_LANES)
    (hveil : s.veil.length + veilCopiesOf (s.orbitCounter + 1) ≤
      ORBIT.maxParticles - (ORBIT.laneCapacity * ORBIT_MAX_LANES + 1)) :
    (enqueueTokens ρ now color [t] s).orbit =
      s.orbit.drop 1 ++ [newOrbitParticle ρ now color t s] ∧
    (newOrbitParticle ρ now color t s).lane =
      s.orbitCounter % (ORBIT.laneCapacity * ORBIT_MAX_LANES) /
        ORBIT.laneCapacity := by
  refine ⟨?_, rfl⟩
  unfold enqueueTokens
  rw [List.foldl_cons, List.foldl_nil]
  unfold enqueueToken
  dsimp only
  rw [enforceCaps_one_over]
  · dsimp only
    rw [foldPushVeil_orbit]
    dsimp only
    rw [List.drop_append_of_le_length (by
      simp only [ORBIT.laneCapacity, ORBIT_MAX_LANES] at hfull
      omega)]
  · rw [foldPushVeil_orbit]
    simp only [List.length_append, List.length_cons, List.length_nil]
    simp only [ORBIT.laneCapacity, ORBIT_MAX_LANES] at hfull ⊢
    omega
  · rw [foldPushVeil_veil_length]
    simp only [ORBIT.laneCapacity, ORBIT_MAX_LANES, ORBIT.maxParticles]
      at hveil ⊢
    omega

set_option maxRecDepth 20000 in
/-- Witness for `orbit_overflow_fifo_amended` on the concrete full
store. -/
theorem orbit_overflow_fifo_amended_witness :
    (fullOrbitStore.orbit.length = ORBIT.laneCapacity * ORBIT_MAX_LANES ∧
     fullOrbitStore.veil.length +
        veilCopiesOf (fullOrbitStore.orbitCounter + 1) ≤
       ORBIT.maxParticles - (ORBIT.laneCapacity * ORBIT_MAX_LANES + 1)) ∧
    ((enqueueTokens (fun _ => 0) 0 "c" ["A"] fullOrbitStore).orbit =
       fullOrbitStore.orbit.drop 1 ++
         [newOrbitParticle (fun _ => 0) 0 "c" "A" fullOrbitStore] ∧
     (newOrbitParticle (fun _ => 0) 0 "c" "A" fullOrbitStore).lane =
       fullOrbitStore.orbitCounter %
           (ORBIT.laneCapacity * ORBIT_MAX_LANES) / ORBIT.laneCapacity) :=
  ⟨⟨by decide, by decide⟩,
   orbit_overflow_fifo_amended (fun _ => 0) 0 "c" "A" fullOrbitStore
     (by decide) (by decide)⟩
